import Mathlib

/-!
# solana-deployer: verification of the upload-and-activate pipeline

Shallow embedding of the core of the `solana-deployer` repository
(`src/lib.rs`, `src/main.rs`, `src/utils.rs`) and proofs about it.

The program uploads a binary artifact to a Solana buffer account in
fixed-size chunks written by a pool of worker threads, then deploys or
upgrades a program from that buffer.  The external RPC client
(`solana_client::rpc_client::RpcClient`) is modelled as an oracle: every
network call site takes the call's outcome as an explicit
`Except CErr _` argument (or, for loops, a list of per-iteration
outcomes), in exactly the order the Rust code performs the calls.
Machine integers are `Nat` with an explicit `% 2 ^ 32` where the source
casts to `u32`; Rust panics (division by zero, `slice::chunks` with a
zero size) are made explicit as distinct outcomes rather than mapped to
Lean's total functions.

Key control-flow facts of the source that the embedding reproduces:

* `write_to_buffer_account` (lib.rs 255-324) spawns its workers with
  `crossbeam::thread::scope` and never joins the returned handles, so
  the `Result` value a worker closure returns is discarded; the value of
  `thread::scope` itself is an error only when a spawned thread
  *panicked*.  The embedding therefore carries both the (dropped) worker
  results and a separate per-batch `panicked` flag.
* When `thread::scope` does report an error, the code runs
  `close_buffer_account(..)?` and then *continues the batch loop*; the
  function afterwards returns `Ok(())`.
* `main` (main.rs 44-62) propagates an error of
  `write_to_buffer_account` with `?` (no close), and on a
  `deploy_or_upgrade_program` error runs `close_buffer_account(..)?`
  before `bail!(original)`, so a failing close preempts the original
  error.
-/

namespace SolanaDeployer

/-- Error conditions the external ledger client (RpcClient) can report.
The source never inspects the error value, so the exact constructors
only matter for stating claims: `retryable` is a transient submission
failure, `fatalSubmit` a non-retryable rejection, `accountNotFound` the
condition returned when the target account of a transaction does not
exist, `network` any other transport failure. -/
inductive CErr
  | retryable
  | fatalSubmit
  | accountNotFound
  | network
  deriving DecidableEq, Repr

/-- A retryable error, per the taxonomy of the specification (§7). -/
def CErr.isRetryable : CErr → Bool
  | .retryable => true
  | _ => false

deriving instance DecidableEq for Except

/-! ## SizeCalculator: utils.rs 26-51 (`calculate_max_chunk_size`) -/

/-- Solana's fixed maximum packet payload, `solana_sdk::packet::PACKET_DATA_SIZE`
(1280-byte IPv6 minimum MTU, minus 40 bytes IPv6 header, minus 8 bytes
fragment header). -/
def PACKET_DATA_SIZE : Nat := 1280 - 40 - 8

/-- utils.rs 26-51.  The baseline transaction (one empty-payload `write`
instruction plus one default signature per required signer) is built and
bincode-serialized by the Solana SDK; its size is the embedding's
input `baselineTxSize`.  The source returns
`PACKET_DATA_SIZE.saturating_sub(tx_size).saturating_sub(1)`, which is
exactly truncated `Nat` subtraction. -/
def calculate_max_chunk_size (baselineTxSize : Nat) : Nat :=
  PACKET_DATA_SIZE - baselineTxSize - 1

/-- Outcome of the first statements of `write_to_buffer_account` that
consume the chunk size (lib.rs 249-250). -/
inductive RtOutcome
  | panicDivByZero
  | configError
  | proceed (txCount : Nat)
  deriving DecidableEq, Repr

/-- lib.rs 250: `let tx_count = buffer_len / chunk_sz + 2;`.  Rust integer
division by zero panics, so the zero-divisor case is made explicit; there
is no check of `chunk_sz` anywhere upstream of this statement. -/
def upload_tx_count (bufferLen chunkSz : Nat) : RtOutcome :=
  if chunkSz = 0 then .panicDivByZero else .proceed (bufferLen / chunkSz + 2)

/-! ## StagingAccount close: lib.rs 391-417 (`close_buffer_account`) -/

/-- lib.rs 391-417.  Fetches a blockhash (`?`), builds and submits the
close transaction, and propagates any client error with added context;
there is no inspection of the error value, in particular no special case
for `accountNotFound`.  Hash and signature values are modelled as `Nat`. -/
def close_buffer_account (bhRes : Except CErr Nat) (sendRes : Except CErr Nat) :
    Except CErr Unit :=
  match bhRes with
  | .error e => .error e
  | .ok _ =>
    match sendRes with
    | .error e => .error e
    | .ok _ => .ok ()

/-! ## SubmissionWorker: utils.rs 74-99 (`send_and_confirm_transaction_with_config`)

The source is a doubly nested unbounded loop: the outer loop submits the
transaction (`send_transaction_with_config`, whose error propagates with
`?` immediately); the inner loop polls `confirm_transaction_with_commitment`
— any result other than `Ok(Response { value: true })` (including an `Err`)
counts as unconfirmed — and breaks back to a resubmission once the elapsed
time since this submission exceeds the timeout.  One `Attempt` records one
outer iteration: the submission outcome and the sequence of poll results
observed before the timeout would fire.  Running the loop against a finite
list of attempts returns `none` when the modelled horizon is exhausted with
the loop still running. -/

/-- One poll of `confirm_transaction_with_commitment`: confirmed, not yet
confirmed, or a client error (which the source's `if let Ok(..)` silently
treats as unconfirmed). -/
inductive PollRes
  | confirmedTrue
  | confirmedFalse
  | pollErr (e : CErr)
  deriving DecidableEq, Repr

/-- One iteration of the outer submission loop. -/
structure Attempt where
  sendRes : Except CErr Nat
  polls : List PollRes
  deriving DecidableEq, Repr

/-- utils.rs 86-97, the inner confirmation loop for a submission that
returned signature `sig`: scan the polls; the first confirmed poll returns
the signature, exhaustion is the timeout. -/
def confirm_loop (sig : Nat) : List PollRes → Option Nat
  | [] => none
  | p :: rest => if p = .confirmedTrue then some sig else confirm_loop sig rest

/-- utils.rs 74-99, the outer loop over a finite list of modelled attempts:
a send error propagates at once via `?`; a confirmed submission returns its
signature; a timed-out one falls through to the next attempt. -/
def send_and_confirm_transaction_with_config :
    List Attempt → Option (Except CErr Nat)
  | [] => none
  | a :: rest =>
    match a.sendRes with
    | .error e => some (.error e)
    | .ok sig =>
      match confirm_loop sig a.polls with
      | some s => some (.ok s)
      | none => send_and_confirm_transaction_with_config rest

/-! ## StagingAccount allocation: lib.rs 194-237 (`create_buffer_account`) -/

/-- Errors of the session-level operations (anyhow::Error in the source,
split by origin). -/
inductive SessionErr
  | insufficientFunds
  | client (e : CErr)
  deriving DecidableEq, Repr

/-- A transaction submission observed on the wire. -/
inductive LedgerEvent
  | submitted
  deriving DecidableEq, Repr

/-- lib.rs 194-237.  After the rent-exemption and balance queries (whose
successful results are the `minBalance`/`payerBalance` inputs), the source
runs `ensure!(payer_balance >= min_balance, "Insufficient funds.")`, and
only past that point builds the create-buffer instruction, fetches a
blockhash and submits the transaction.  The event list records every
submission performed. -/
def create_buffer_account (minBalance payerBalance : Nat)
    (bhRes : Except CErr Nat) (sendRes : Except CErr Nat) :
    Except SessionErr Unit × List LedgerEvent :=
  if payerBalance < minBalance then (.error .insufficientFunds, [])
  else
    match bhRes with
    | .error e => (.error (.client e), [])
    | .ok _ =>
      match sendRes with
      | .error e => (.error (.client e), [.submitted])
      | .ok _ => (.ok (), [.submitted])

/-! ## ActivationManager: lib.rs 327-389 (`deploy_or_upgrade_program`) -/

/-- The instructions of the activation transaction.  The deploy path passes
the whole sequence returned by `deploy_with_max_program_len` (recorded
as one opaque element carrying the `max_data_len` argument, which the
source sets to `config.program_data.len() * 2`); the upgrade path passes
the literal one-element slice `&[upgrade(..)]`. -/
inductive Instr
  | deploySeq (maxDataLen : Nat)
  | upgradeIx
  deriving DecidableEq, Repr

/-- Who signs the activation transaction. -/
inductive SignerKind
  | payer
  | programKey
  deriving DecidableEq, Repr

/-- The activation transaction as built by the source. -/
structure ActivationTx where
  instrs : List Instr
  signers : List SignerKind
  deriving DecidableEq, Repr

/-- Network interactions of `deploy_or_upgrade_program`, in order. -/
inductive ActEvent
  | probed
  | fetchedBlockhash
  | rentQueried
  | submitted
  deriving DecidableEq, Repr

/-- lib.rs 327-389.  `get_account` for the program id is captured (not
`?`-propagated); the blockhash fetch then propagates its error; `Err(_)` of
the probe selects the deploy arm, which queries the rent-exempt minimum for
a program account (propagating its error) and builds the
`deploy_with_max_program_len` sequence with `max_data_len = 2 * dataLen`,
signed by payer and program keypair; `Ok(_)` selects the upgrade arm, one
`upgrade` instruction signed by the payer alone and no rent query.  The
built transaction is then submitted.  Returns the overall result, the event
trace, and the transaction that was (or would have been) submitted. -/
def deploy_or_upgrade_program (probeRes : Except CErr Unit)
    (bhRes : Except CErr Nat) (rentRes : Except CErr Nat) (dataLen : Nat)
    (sendRes : Except CErr Nat) :
    Except CErr Unit × List ActEvent × Option ActivationTx :=
  match bhRes with
  | .error e => (.error e, [.probed], none)
  | .ok _ =>
    match probeRes with
    | .error _ =>
      match rentRes with
      | .error e => (.error e, [.probed, .fetchedBlockhash, .rentQueried], none)
      | .ok _ =>
        let tx : ActivationTx :=
          ⟨[.deploySeq (dataLen * 2)], [.payer, .programKey]⟩
        match sendRes with
        | .error e =>
          (.error e, [.probed, .fetchedBlockhash, .rentQueried, .submitted],
            some tx)
        | .ok _ =>
          (.ok (), [.probed, .fetchedBlockhash, .rentQueried, .submitted],
            some tx)
    | .ok _ =>
      let tx : ActivationTx := ⟨[.upgradeIx], [.payer]⟩
      match sendRes with
      | .error e => (.error e, [.probed, .fetchedBlockhash, .submitted], some tx)
      | .ok _ => (.ok (), [.probed, .fetchedBlockhash, .submitted], some tx)

/-! ## ChunkScheduler: lib.rs 255-285, the chunk geometry of the upload loop

`program_data.chunks(chunk_sz * jobs)` yields `⌈len / (chunk_sz * jobs)⌉`
consecutive sub-slices (none for an empty artifact; the call panics when
`chunk_sz * jobs = 0`, which the theorems exclude by hypothesis).  For
batch `i` the source spawns workers `j = 0 .. jobs-1`; a worker computes
`offset = (total_index * chunk_sz) as u32` with `total_index = i*jobs + j`
(the cast is `% 2^32`), returns `Ok` as a no-op when
`offset >= program_data.len() as u32`, and otherwise takes
`chunks.chunks(chunk_sz).nth(j)` — present exactly when `j * chunk_sz`
falls short of the batch's length, with the length of the final slice
clipped to the batch end — failing with "Failed to read thread chunk"
when absent.  `workerOp` records what the worker builds. -/

/-- Modulus of the `as u32` casts at lib.rs 268-269. -/
def U32 : Nat := 2 ^ 32

/-- What one spawned worker builds: a skipped out-of-range chunk, the
"Failed to read thread chunk" error, or a `write` instruction carrying the
on-chain offset (the `u32` value) and the payload length. -/
inductive WOp
  | noop
  | chunkErr
  | write (offset length : Nat)
  deriving DecidableEq, Repr

/-- lib.rs 264-285, the body of worker `j` of batch `i` for an artifact of
`len` bytes: offset arithmetic in `u32`, the out-of-range guard, and the
sub-slice selection with its clipped length. -/
def workerOp (len csz jobs i j : Nat) : WOp :=
  let ti := i * jobs + j
  let offset := ti * csz % U32
  if len % U32 ≤ offset then .noop
  else
    let batchStart := i * (csz * jobs)
    let batchEnd := min len (batchStart + csz * jobs)
    let sliceStart := batchStart + j * csz
    if sliceStart < batchEnd then .write offset (min csz (batchEnd - sliceStart))
    else .chunkErr

/-- Number of outer batches: `program_data.chunks(csz * jobs).count()`. -/
def numBatches (len csz jobs : Nat) : Nat :=
  (len + csz * jobs - 1) / (csz * jobs)

/-- All operations the upload loop builds, in spawn order. -/
def writeOps (len csz jobs : Nat) : List WOp :=
  (List.range (numBatches len csz jobs)).flatMap
    (fun i => (List.range jobs).map (fun j => workerOp len csz jobs i j))

/-- Projection to the write instructions actually built. -/
def WOp.toWrite : WOp → Option (Nat × Nat)
  | .write o l => some (o, l)
  | _ => none

/-- Number of data-carrying chunks of the artifact. -/
def numChunks (len csz : Nat) : Nat := (len + csz - 1) / csz

/-- The chunk list the specification describes: chunk `k` starts at
`k * csz` and carries `min csz (len - k * csz)` bytes. -/
def chunkSpec (len csz : Nat) : List (Nat × Nat) :=
  (List.range (numChunks len csz)).map (fun k => (k * csz, min csz (len - k * csz)))

/-! ## UploadCoordinator: lib.rs 239-325 (`write_to_buffer_account`)

The batch loop threads two mutable locals: `start_time` (the `Instant` of
the last blockhash fetch, modelled as a millisecond timestamp) and the
blockhash itself (whose value is irrelevant here).  Per batch the source

1. refreshes the blockhash when `start_time.elapsed().as_secs() > 30`
   (integer seconds, i.e. at least 31000 ms), propagating a fetch error
   with `?` — with no close;
2. runs `thread::scope`, which joins every spawned worker before
   returning; its value is `Err` only for a worker *panic* — the workers'
   own `Result` values are never read because the spawn handles are
   dropped;
3. on `result.is_err()` runs `close_buffer_account(..)?` — so a close
   *error* aborts the loop (propagating the close error), while a close
   *success* falls through and the loop proceeds to the next batch.

The final statement is `Ok(())`. -/

/-- Lifecycle state of the staging (buffer) account, as in the
specification's state machine; only the states the embedded code can
distinguish are needed. -/
inductive BufState
  | unallocated
  | created
  | closed
  deriving DecidableEq, Repr

/-- Oracle data for one iteration of the batch loop. -/
structure BatchInput where
  /-- Millisecond timestamp at the top of this iteration. -/
  now : Nat
  /-- Outcome of `get_latest_blockhash` if the refresh fires. -/
  refreshRes : Except CErr Nat
  /-- The values the worker closures return.  The source drops them
  (the `ScopedJoinHandle`s are never joined), so they influence nothing;
  they are carried so that claims can mention them. -/
  workerResults : List (Except CErr Unit)
  /-- Whether some worker panicked, which is the one condition making
  `thread::scope` itself return an error. -/
  panicked : Bool
  /-- Outcome of `close_buffer_account` if it is invoked. -/
  closeRes : Except CErr Unit
  deriving DecidableEq, Repr

/-- Trace events of the coordinator. -/
inductive CoordEvent
  | fetchedBlockhash (time : Nat)
  | spawned (batch : Nat)
  | joined (batch : Nat)
  | closedBuffer (batch : Nat)
  deriving DecidableEq, Repr

/-- Result, trace and final buffer state of a phase. -/
structure PhaseOut where
  result : Except CErr Unit
  events : List CoordEvent
  bufState : BufState
  deriving DecidableEq, Repr

/-- lib.rs 263-321 for one batch: spawn and join the workers, and on a
scope error attempt the close.  Returns `some e` when the loop aborts via
`?` on a failing close, plus the state update and the events. -/
def batch_body (i : Nat) (st : BufState) (b : BatchInput) :
    Option CErr × BufState × List CoordEvent :=
  if b.panicked then
    match b.closeRes with
    | .error e => (some e, st, [.spawned i, .joined i, .closedBuffer i])
    | .ok _ => (none, .closed, [.spawned i, .joined i, .closedBuffer i])
  else (none, st, [.spawned i, .joined i])

/-- lib.rs 255-324, the batch loop.  `lastFetch` is the timestamp behind
`start_time`; `i` the index of the next batch. -/
def coordinator_loop : Nat → Nat → BufState → List BatchInput → PhaseOut
  | _, _, st, [] => ⟨.ok (), [], st⟩
  | lastFetch, i, st, b :: rest =>
    if 30 < (b.now - lastFetch) / 1000 then
      match b.refreshRes with
      | .error e => ⟨.error e, [], st⟩
      | .ok _ =>
        match batch_body i st b with
        | (some e, st', evs) => ⟨.error e, .fetchedBlockhash b.now :: evs, st'⟩
        | (none, st', evs) =>
          let out := coordinator_loop b.now (i + 1) st' rest
          ⟨out.result, .fetchedBlockhash b.now :: evs ++ out.events, out.bufState⟩
    else
      match batch_body i st b with
      | (some e, st', evs) => ⟨.error e, evs, st'⟩
      | (none, st', evs) =>
        let out := coordinator_loop lastFetch (i + 1) st' rest
        ⟨out.result, evs ++ out.events, out.bufState⟩

/-- lib.rs 252-324 from the initial blockhash fetch on: the fetch error
propagates with `?` (no close), otherwise `start_time` is initialised to
`initNow` and the batch loop runs with the buffer in `created` state. -/
def write_phase (initBhRes : Except CErr Nat) (initNow : Nat)
    (batches : List BatchInput) : PhaseOut :=
  match initBhRes with
  | .error e => ⟨.error e, [], .created⟩
  | .ok _ =>
    let out := coordinator_loop initNow 0 .created batches
    ⟨out.result, .fetchedBlockhash initNow :: out.events, out.bufState⟩

/-! ## Top level: main.rs 44-62 -/

/-- main.rs 44-62 after a successful config parse: create the buffer
(`?`), run the write phase (`?` — the buffer state is whatever the write
phase left), then deploy or upgrade; on a deploy error run
`close_buffer_account(..)?` — whose own error preempts the original — and
otherwise `bail!` the original error.  Returns the process result and the
final state of the staging account. -/
def main_run (createRes : Except CErr Unit) (writeOut : PhaseOut)
    (deployRes : Except CErr Unit) (closeRes : Except CErr Unit) :
    Except CErr Unit × BufState :=
  match createRes with
  | .error e => (.error e, .unallocated)
  | .ok _ =>
    match writeOut.result with
    | .error e => (.error e, writeOut.bufState)
    | .ok _ =>
      match deployRes with
      | .error e =>
        match closeRes with
        | .error ce => (.error ce, writeOut.bufState)
        | .ok _ => (.error e, .closed)
      | .ok _ => (.ok (), writeOut.bufState)

/-- Trace well-formedness used to state C9's in-flight condition: every
spawn of a batch is immediately followed by that batch's join — in
particular no blockhash fetch ever falls between a spawn and its join,
because `thread::scope` does not return until every worker it spawned has
finished. -/
def flight_ok : List CoordEvent → Bool
  | CoordEvent.spawned _ :: CoordEvent.joined _ :: rest => flight_ok rest
  | CoordEvent.spawned _ :: _ => false
  | _ :: rest => flight_ok rest
  | [] => true

/-! ## Theorems -/

/-- The inner confirmation loop succeeds exactly when some poll before the
timeout confirmed, and then it returns the submission's own signature. -/
theorem confirm_loop_eq_some {sig s : Nat} {ps : List PollRes} :
    confirm_loop sig ps = some s ↔ s = sig ∧ PollRes.confirmedTrue ∈ ps := by
  induction ps with
  | nil => simp [confirm_loop]
  | cons p rest ih =>
    by_cases hp : p = PollRes.confirmedTrue
    · subst hp
      simp [confirm_loop, eq_comm]
    · simp only [confirm_loop, if_neg hp, ih, List.mem_cons]
      constructor
      · rintro ⟨h1, h2⟩
        exact ⟨h1, Or.inr h2⟩
      · rintro ⟨h1, h2 | h2⟩
        · exact absurd h2.symm hp
        · exact ⟨h1, h2⟩

/-- C3 (amended): the submission worker returns success only when a
confirmation poll at the configured commitment reported `true`, and then it
returns that submission's signature (conjunct 1); the only errors it ever
surfaces are submission errors returned by the ledger client's send call —
confirmation-poll errors and timeouts are absorbed (conjunct 2); a send
error is propagated immediately, without any retry (conjunct 3), and the
code does not distinguish retryable from non-retryable send errors; a
confirmation timeout leads to a resubmission, not an error (conjunct 4). -/
theorem send_worker_behaviour (as : List Attempt) :
    (∀ s, send_and_confirm_transaction_with_config as = some (.ok s) →
      ∃ a ∈ as, a.sendRes = .ok s ∧ PollRes.confirmedTrue ∈ a.polls) ∧
    (∀ e, send_and_confirm_transaction_with_config as = some (.error e) →
      ∃ a ∈ as, a.sendRes = .error e) ∧
    (∀ e a rest, as = a :: rest → a.sendRes = .error e →
      send_and_confirm_transaction_with_config as = some (.error e)) ∧
    (∀ sig a rest, as = a :: rest → a.sendRes = .ok sig →
      confirm_loop sig a.polls = none →
      send_and_confirm_transaction_with_config as =
        send_and_confirm_transaction_with_config rest) := by
  refine ⟨?_, ?_, ?_, ?_⟩
  · intro s
    induction as with
    | nil => intro h; simp [send_and_confirm_transaction_with_config] at h
    | cons a rest ih =>
      intro h
      match ha : a.sendRes with
      | .error e =>
        simp [send_and_confirm_transaction_with_config, ha] at h
      | .ok sig =>
        match hc : confirm_loop sig a.polls with
        | some s' =>
          simp [send_and_confirm_transaction_with_config, ha, hc] at h
          obtain ⟨h1, h2⟩ := confirm_loop_eq_some.1 hc
          exact ⟨a, by simp, by rw [ha, ← h1, h], h2⟩
        | none =>
          simp only [send_and_confirm_transaction_with_config, ha, hc] at h
          obtain ⟨a', ha', h1, h2⟩ := ih h
          exact ⟨a', by simp [ha'], h1, h2⟩
  · intro e
    induction as with
    | nil => intro h; simp [send_and_confirm_transaction_with_config] at h
    | cons a rest ih =>
      intro h
      match ha : a.sendRes with
      | .error e' =>
        simp [send_and_confirm_transaction_with_config, ha] at h
        exact ⟨a, by simp, by rw [ha, h]⟩
      | .ok sig =>
        match hc : confirm_loop sig a.polls with
        | some s' => simp [send_and_confirm_transaction_with_config, ha, hc] at h
        | none =>
          simp only [send_and_confirm_transaction_with_config, ha, hc] at h
          obtain ⟨a', ha', h1⟩ := ih h
          exact ⟨a', by simp [ha'], h1⟩
  · intro e a rest has ha
    subst has
    simp [send_and_confirm_transaction_with_config, ha]
  · intro sig a rest has ha hc
    subst has
    simp [send_and_confirm_transaction_with_config, ha, hc]

/-- Witness for C3's theorem at a concrete two-poll run: the first poll is
unconfirmed, the second confirms, so the loop returns signature 7 and that
successful attempt is exhibited. -/
theorem send_worker_behaviour_witness :
    ∃ a ∈ [(⟨.ok 7, [.confirmedFalse, .confirmedTrue]⟩ : Attempt)],
      a.sendRes = .ok 7 ∧ PollRes.confirmedTrue ∈ a.polls :=
  (send_worker_behaviour [⟨.ok 7, [.confirmedFalse, .confirmedTrue]⟩]).1 7 rfl

/-- C3 counterexample: a retryable submission error from the ledger client
is surfaced to the caller unchanged — the source's `?` on
`send_transaction_with_config` does not inspect the error kind, so the
claim that retryable submission errors are never surfaced is false. -/
theorem send_worker_surfaces_retryable :
    send_and_confirm_transaction_with_config [⟨.error .retryable, []⟩]
      = some (.error .retryable) ∧ CErr.isRetryable .retryable = true :=
  ⟨rfl, rfl⟩

/-- C4 (amended): `close_buffer_account` succeeds exactly when both the
blockhash fetch and the close submission succeed; every ledger-client
error, including account-not-found, is propagated — closing an
already-closed or never-created account is an error, not a no-op success. -/
theorem close_propagates_every_error (bh send : Except CErr Nat) :
    (close_buffer_account bh send = .ok () ↔
      (∃ h, bh = .ok h) ∧ ∃ s, send = .ok s) ∧
    (∀ h, close_buffer_account (.ok h) (.error .accountNotFound)
      = .error .accountNotFound) := by
  constructor
  · match bh with
    | .error e => simp [close_buffer_account]
    | .ok h =>
      match send with
      | .error e => simp [close_buffer_account]
      | .ok s => simp [close_buffer_account]
  · intro h
    simp [close_buffer_account]

/-- C4 counterexample: when the ledger client reports account-not-found for
the close transaction, `close_buffer_account` returns that error rather
than success. -/
theorem close_account_not_found_errors :
    close_buffer_account (.ok 0) (.error .accountNotFound)
      = .error CErr.accountNotFound ∧
    close_buffer_account (.ok 0) (.error .accountNotFound) ≠ .ok () := by
  decide

/-- C5 (amended): the chunk-size calculator returns
`maxPacketSize − baselineSize − 1` saturated at zero (never negative);
but a zero result is not turned into a configuration error upstream: the
very next statement of `write_to_buffer_account` divides the buffer length
by the chunk size, which for chunk size zero is a division-by-zero panic. -/
theorem chunk_size_saturates (t : Nat) :
    ((calculate_max_chunk_size t : Int)
        = max ((PACKET_DATA_SIZE : Int) - t - 1) 0) ∧
    (calculate_max_chunk_size t = 0 →
      ∀ len, upload_tx_count len (calculate_max_chunk_size t)
        = .panicDivByZero) := by
  constructor
  · rw [max_def]
    split
    · simp only [calculate_max_chunk_size]
      omega
    · simp only [calculate_max_chunk_size]
      omega
  · intro h0 len
    rw [h0]
    simp [upload_tx_count]

/-- Witness for C5's theorem: a baseline transaction of 1231 bytes leaves
a zero budget, and the upstream `tx_count` computation then panics. -/
theorem chunk_size_saturates_witness :
    calculate_max_chunk_size 1231 = 0 ∧
    upload_tx_count 5 (calculate_max_chunk_size 1231) = .panicDivByZero :=
  ⟨by decide, (chunk_size_saturates 1231).2 (by decide) 5⟩

/-- C5 counterexample: at baseline size 1231 the calculator returns 0, and
what happens upstream is a division-by-zero panic, not a configuration
error — no code path signals `configError`. -/
theorem zero_chunk_size_panics :
    calculate_max_chunk_size 1231 = 0 ∧
    upload_tx_count 100 (calculate_max_chunk_size 1231) = .panicDivByZero ∧
    upload_tx_count 100 (calculate_max_chunk_size 1231) ≠ .configError := by
  decide

/-- C6: when the payer's balance is below the rent-exempt minimum, buffer
creation fails with the insufficient-funds error and the event trace is
empty — no transaction is submitted, so no staging account is created. -/
theorem create_buffer_insufficient_funds (minB payer : Nat)
    (bh send : Except CErr Nat) (h : payer < minB) :
    create_buffer_account minB payer bh send
      = (.error .insufficientFunds, []) := by
  simp [create_buffer_account, h]

/-- Witness for C6's theorem: balance 3 against a minimum of 5. -/
theorem create_buffer_insufficient_funds_witness :
    create_buffer_account 5 3 (.ok 0) (.ok 0)
      = (.error .insufficientFunds, []) :=
  create_buffer_insufficient_funds 5 3 (.ok 0) (.ok 0) (by decide)

/-- C8: activation probes the target program account; a failing probe (the
absent case) selects the deploy path, building the
`deploy_with_max_program_len` sequence sized `2 × artifactLength`, signed by
payer and program keys, after querying the deploy-sized rent exemption; a
successful probe (the present case) builds the single upgrade instruction
signed by the payer only, and the deploy-sized rent-exempt balance is never
queried on that path. -/
theorem activation_paths (dataLen : Nat) (bh rent send : Except CErr Nat) :
    (∀ e h r, bh = .ok h → rent = .ok r →
      (deploy_or_upgrade_program (.error e) bh rent dataLen send).2.2
          = some ⟨[.deploySeq (dataLen * 2)], [.payer, .programKey]⟩ ∧
        ActEvent.rentQueried
          ∈ (deploy_or_upgrade_program (.error e) bh rent dataLen send).2.1) ∧
    (∀ h, bh = .ok h →
      (deploy_or_upgrade_program (.ok ()) bh rent dataLen send).2.2
          = some ⟨[.upgradeIx], [.payer]⟩ ∧
        ActEvent.rentQueried
          ∉ (deploy_or_upgrade_program (.ok ()) bh rent dataLen send).2.1) := by
  constructor
  · intro e h r hbh hrent
    subst hbh; subst hrent
    match send with
    | .error e' => simp [deploy_or_upgrade_program]
    | .ok s => simp [deploy_or_upgrade_program]
  · intro h hbh
    subst hbh
    match send with
    | .error e' => simp [deploy_or_upgrade_program]
    | .ok s => simp [deploy_or_upgrade_program]

/-- Witness for C8's theorem: a probe error with artifact length 10 builds
the deploy sequence sized 20 with both signers, after the rent query. -/
theorem activation_paths_witness :
    (deploy_or_upgrade_program (.error .accountNotFound) (.ok 1) (.ok 2) 10
          (.ok 3)).2.2
        = some ⟨[.deploySeq (10 * 2)], [.payer, .programKey]⟩ ∧
      ActEvent.rentQueried
        ∈ (deploy_or_upgrade_program (.error .accountNotFound) (.ok 1) (.ok 2)
            10 (.ok 3)).2.1 :=
  (activation_paths 10 (.ok 1) (.ok 2) (.ok 3)).1 .accountNotFound 1 2 rfl rfl

/-- C10: the deploy path is selected for a probe error of any kind — the
outcome of `deploy_or_upgrade_program` does not depend on which error the
`get_account` probe returned (conjunct 1), a probe error always yields the
deploy-sized transaction when the later calls succeed (conjunct 2), and any
error the function does surface originates in the blockhash fetch, the rent
query or the submission, never in the probe (conjunct 3). -/
theorem probe_error_means_deploy (e e' : CErr) (dataLen : Nat)
    (bh rent send : Except CErr Nat) :
    (deploy_or_upgrade_program (.error e) bh rent dataLen send
      = deploy_or_upgrade_program (.error e') bh rent dataLen send) ∧
    (∀ h r, bh = .ok h → rent = .ok r →
      (deploy_or_upgrade_program (.error e) bh rent dataLen send).2.2
        = some ⟨[.deploySeq (dataLen * 2)], [.payer, .programKey]⟩) ∧
    (∀ f, (deploy_or_upgrade_program (.error e) bh rent dataLen send).1
        = .error f →
      bh = .error f ∨ rent = .error f ∨ send = .error f) := by
  refine ⟨rfl, ?_, ?_⟩
  · intro h r hbh hrent
    subst hbh; subst hrent
    match send with
    | .error e'' => simp [deploy_or_upgrade_program]
    | .ok s => simp [deploy_or_upgrade_program]
  · intro f
    match bh with
    | .error eb =>
      intro hf
      exact Or.inl (by simpa [deploy_or_upgrade_program] using hf)
    | .ok hb =>
      match rent with
      | .error er =>
        intro hf
        exact Or.inr (Or.inl (by simpa [deploy_or_upgrade_program] using hf))
      | .ok r =>
        match send with
        | .error es =>
          intro hf
          exact Or.inr (Or.inr (by simpa [deploy_or_upgrade_program] using hf))
        | .ok s =>
          simp [deploy_or_upgrade_program]

/-- Witness for C10's theorem: with the probe failing as fatal and the
blockhash fetch failing as a network error, the surfaced error is the
blockhash one. -/
theorem probe_error_means_deploy_witness :
    (Except.error CErr.network : Except CErr Nat) = .error .network ∨
      (Except.ok 0 : Except CErr Nat) = .error .network ∨
      (Except.ok 0 : Except CErr Nat) = .error .network :=
  (probe_error_means_deploy .fatalSubmit .retryable 4 (.error .network)
    (.ok 0) (.ok 0)).2.2 .network rfl

/-- C1 (code bug): the coordinator does not abort on worker failure.
Conjuncts 2-3: with a single batch of four workers of which worker 3
returns the fatal submission error (and no thread panics, since a worker
failure is an `Err` return, not a panic), the write phase returns success,
emits no close, and leaves the buffer merely created — the worker results
are discarded because the scope's join handles are never read.
Conjunct 4: even when the scope does report a failure (a panic) and the
close succeeds, the loop continues with the next batch and the function
still returns success, so the original failure is never propagated. -/
theorem worker_failure_ignored :
    ((Except.error CErr.fatalSubmit) ∈
      (⟨0, .ok 0, [.ok (), .ok (), .error .fatalSubmit, .ok ()], false,
        .ok ()⟩ : BatchInput).workerResults) ∧
    (⟨0, .ok 0, [.ok (), .ok (), .error .fatalSubmit, .ok ()], false,
        .ok ()⟩ : BatchInput).panicked = false ∧
    write_phase (.ok 0) 0
        [⟨0, .ok 0, [.ok (), .ok (), .error .fatalSubmit, .ok ()], false,
          .ok ()⟩]
      = ⟨.ok (), [.fetchedBlockhash 0, .spawned 0, .joined 0], .created⟩ ∧
    write_phase (.ok 0) 0
        [⟨0, .ok 0, [], true, .ok ()⟩, ⟨1, .ok 0, [], false, .ok ()⟩]
      = ⟨.ok (), [.fetchedBlockhash 0, .spawned 0, .joined 0, .closedBuffer 0,
          .spawned 1, .joined 1], .closed⟩ := by
  decide

/-- C2 (code bug): errors after buffer creation do not reliably close the
buffer.  Conjunct 1: a failing initial blockhash fetch inside the write
phase (after the buffer exists) is propagated by `main` with `?` and no
close is attempted — the session ends with the buffer still `created`.
Conjunct 2: when activation fails with the fatal submission error and the
close also fails (network error), the surfaced error is the close error —
the original activation error is dropped, not preserved as primary cause. -/
theorem error_after_create_leaves_buffer_open :
    main_run (.ok ()) (write_phase (.error .network) 0 []) (.ok ()) (.ok ())
      = (.error CErr.network, .created) ∧
    main_run (.ok ()) (write_phase (.ok 0) 0 []) (.error .fatalSubmit)
        (.error .network)
      = (.error CErr.network, .created) := by
  decide

/-- C9 (amended): before a batch, the blockhash is refetched exactly when
the elapsed time since the last fetch, truncated to whole seconds, exceeds
30 — that is, when at least 31000 ms have passed (conjunct 1); when fewer
have passed, the batch is spawned with no preceding fetch (conjunct 2); and
in every trace each spawn is immediately followed by its join, so no fetch
ever happens while a batch's workers are in flight (conjunct 3). -/
theorem refresh_policy (lastFetch i : Nat) (st : BufState) (b : BatchInput)
    (rest : List BatchInput) :
    (∀ h, 31000 ≤ b.now - lastFetch → b.refreshRes = .ok h →
      ∃ tl, (coordinator_loop lastFetch i st (b :: rest)).events
        = CoordEvent.fetchedBlockhash b.now :: CoordEvent.spawned i :: tl) ∧
    (b.now - lastFetch < 31000 →
      (coordinator_loop lastFetch i st (b :: rest)).events.head?
        = some (CoordEvent.spawned i)) ∧
    (∀ lf j st' bs, flight_ok (coordinator_loop lf j st' bs).events = true) := by
  refine ⟨?_, ?_, ?_⟩
  · intro h helapsed hres
    have hcond : 30 < (b.now - lastFetch) / 1000 := by omega
    by_cases hp : b.panicked
    · match hcl : b.closeRes with
      | .error e =>
        refine ⟨[CoordEvent.joined i, CoordEvent.closedBuffer i], ?_⟩
        simp [coordinator_loop, if_pos hcond, hres, batch_body, hp, hcl]
      | .ok u =>
        refine ⟨[CoordEvent.joined i, CoordEvent.closedBuffer i]
          ++ (coordinator_loop b.now (i + 1) BufState.closed rest).events, ?_⟩
        simp [coordinator_loop, if_pos hcond, hres, batch_body, hp, hcl]
    · refine ⟨[CoordEvent.joined i]
        ++ (coordinator_loop b.now (i + 1) st rest).events, ?_⟩
      simp [coordinator_loop, if_pos hcond, hres, batch_body, hp]
  · intro hlt
    have hcond : ¬ 30 < (b.now - lastFetch) / 1000 := by omega
    by_cases hp : b.panicked
    · match hcl : b.closeRes with
      | .error e => simp [coordinator_loop, if_neg hcond, batch_body, hp, hcl]
      | .ok u => simp [coordinator_loop, if_neg hcond, batch_body, hp, hcl]
    · simp [coordinator_loop, if_neg hcond, batch_body, hp]
  · intro lf j st' bs
    induction bs generalizing lf j st' with
    | nil => simp [coordinator_loop, flight_ok]
    | cons b' rest' ih =>
      by_cases hcond : 30 < (b'.now - lf) / 1000
      · match hres : b'.refreshRes with
        | .error e =>
          simp [coordinator_loop, if_pos hcond, hres, flight_ok]
        | .ok hsh =>
          by_cases hp : b'.panicked
          · match hcl : b'.closeRes with
            | .error e =>
              simp [coordinator_loop, if_pos hcond, hres, batch_body, hp, hcl,
                flight_ok]
            | .ok u =>
              simp [coordinator_loop, if_pos hcond, hres, batch_body, hp, hcl,
                flight_ok, ih]
          · simp [coordinator_loop, if_pos hcond, hres, batch_body, hp,
              flight_ok, ih]
      · by_cases hp : b'.panicked
        · match hcl : b'.closeRes with
          | .error e =>
            simp [coordinator_loop, if_neg hcond, batch_body, hp, hcl,
              flight_ok]
          | .ok u =>
            simp [coordinator_loop, if_neg hcond, batch_body, hp, hcl,
              flight_ok, ih]
        · simp [coordinator_loop, if_neg hcond, batch_body, hp, flight_ok, ih]

/-- Witness for C9's theorem: at 31000 ms since the last fetch, the batch's
trace starts with the refetch followed by the spawn. -/
theorem refresh_policy_witness :
    ∃ tl, (coordinator_loop 0 0 .created
        [⟨31000, .ok 5, [], false, .ok ()⟩]).events
      = CoordEvent.fetchedBlockhash 31000 :: CoordEvent.spawned 0 :: tl :=
  (refresh_policy 0 0 .created ⟨31000, .ok 5, [], false, .ok ()⟩ []).1 5
    (by decide) rfl

/-- C9 counterexample: 30500 ms is more than 30 seconds, yet the batch
runs with no refetch, because the source compares whole seconds
(`elapsed().as_secs() > 30` is false at 30500 ms). -/
theorem refresh_skipped_at_30500ms :
    30 * 1000 < 30500 ∧
    (coordinator_loop 0 0 .created
        [⟨30500, .ok 5, [], false, .ok ()⟩]).events
      = [CoordEvent.spawned 0, CoordEvent.joined 0] := by
  decide

/-- Ceiling division times the divisor is at least the dividend. -/
theorem le_ceil_mul (len B : Nat) (hB : 0 < B) :
    len ≤ (len + B - 1) / B * B := by
  have h1 : len + B - 1 < (len + B - 1) / B * B + B := Nat.lt_div_mul_add hB
  omega

/-- Chunk index versus chunk count: chunk `ti` carries data exactly when
its start lies inside the artifact. -/
theorem lt_numChunks_iff (len csz ti : Nat) (hc : 0 < csz) :
    ti < numChunks len csz ↔ ti * csz < len := by
  unfold numChunks
  rw [Nat.lt_iff_add_one_le, Nat.le_div_iff_mul_le hc]
  have e : (ti + 1) * csz = ti * csz + csz := by ring
  omega

/-- The worker grid is wide enough: every data-carrying chunk index is
reached by some `(batch, worker)` pair. -/
theorem numChunks_le_batches (len csz jobs : Nat) (hc : 0 < csz)
    (hj : 0 < jobs) :
    numChunks len csz ≤ numBatches len csz jobs * jobs := by
  by_contra hcon
  push_neg at hcon
  have h2 : numBatches len csz jobs * jobs * csz < len :=
    (lt_numChunks_iff len csz _ hc).1 hcon
  have h3 : len ≤ numBatches len csz jobs * (csz * jobs) :=
    le_ceil_mul len (csz * jobs) (Nat.mul_pos hc hj)
  have h4 : numBatches len csz jobs * (csz * jobs)
      = numBatches len csz jobs * jobs * csz := by ring
  rw [h4] at h3
  exact absurd h3 (Nat.not_le.2 h2)

/-- In range of the batch grid and below the `u32` overflow bound, a worker
builds exactly the chunk of the artifact at `total_index * csz`, clipped to
the artifact end — or skips when that start is past the end. -/
theorem workerOp_eq (len csz jobs i j : Nat) (hc : 0 < csz) (hj : 0 < jobs)
    (hb : len + csz * jobs ≤ U32)
    (hi : i < numBatches len csz jobs) (hjj : j < jobs) :
    workerOp len csz jobs i j
      = if (i * jobs + j) * csz < len then
          WOp.write ((i * jobs + j) * csz)
            (min csz (len - (i * jobs + j) * csz))
        else WOp.noop := by
  have hB : 0 < csz * jobs := Nat.mul_pos hc hj
  have e1 : (i * jobs + j) * csz = i * (csz * jobs) + j * csz := by ring
  have e2 : (i + 1) * (csz * jobs) = i * (csz * jobs) + csz * jobs := by ring
  have e3 : (j + 1) * csz = j * csz + csz := by ring
  have h4 : (i + 1) * (csz * jobs) ≤ numBatches len csz jobs * (csz * jobs) :=
    Nat.mul_le_mul_right _ hi
  have h5 : numBatches len csz jobs * (csz * jobs) ≤ len + csz * jobs - 1 :=
    Nat.div_mul_le_self _ _
  have h6 : (j + 1) * csz ≤ csz * jobs := by
    calc (j + 1) * csz ≤ jobs * csz := Nat.mul_le_mul_right _ hjj
      _ = csz * jobs := Nat.mul_comm _ _
  have hofs : (i * jobs + j) * csz < U32 := by omega
  have hlen : len < U32 := by omega
  simp only [workerOp]
  rw [Nat.mod_eq_of_lt hofs, Nat.mod_eq_of_lt hlen]
  by_cases hlt : (i * jobs + j) * csz < len
  · rw [if_neg (by omega), if_pos hlt, if_pos (by omega)]
    congr 1
    omega
  · rw [if_pos (by omega), if_neg hlt]

/-- Linearisation of the two nested loops: batch index `i` and worker
index `j` enumerate `total_index = i * m + j` over `range (n * m)`. -/
theorem range_mul_flatMap {α : Type} (m : Nat) (f : Nat → α) :
    ∀ n : Nat,
      (List.range n).flatMap
          (fun i => (List.range m).map (fun j => f (i * m + j)))
        = (List.range (n * m)).map f
  | 0 => by simp
  | n + 1 => by
    rw [List.range_succ, List.flatMap_append, range_mul_flatMap m f n,
      Nat.succ_mul, List.range_add, List.map_append, List.map_map]
    simp [Function.comp]

/-- A filterMap whose guard holds on every element of the list is a map. -/
theorem filterMap_cutoff_all_lt {α : Type} (g : Nat → α) (K : Nat) :
    ∀ l : List Nat, (∀ x ∈ l, x < K) →
      l.filterMap (fun ti => if ti < K then some (g ti) else none)
        = l.map g := by
  intro l
  induction l with
  | nil => simp
  | cons x xs ih =>
    intro hall
    rw [List.filterMap_cons, List.map_cons, if_pos (hall x (by simp)),
      ih (fun y hy => hall y (by simp [hy]))]

/-- FilterMapping a guarded `some` over `range N` truncates to `range K`. -/
theorem filterMap_range_cutoff {α : Type} (g : Nat → α) (K N : Nat)
    (h : K ≤ N) :
    (List.range N).filterMap (fun ti => if ti < K then some (g ti) else none)
      = (List.range K).map g := by
  obtain ⟨d, rfl⟩ := Nat.exists_eq_add_of_le h
  rw [List.range_add, List.filterMap_append,
    filterMap_cutoff_all_lt g K (List.range K)
      (fun x hx => List.mem_range.1 hx)]
  have h2 : ((List.range d).map (K + ·)).filterMap
      (fun ti => if ti < K then some (g ti) else none) = [] := by
    refine List.filterMap_eq_nil_iff.2 ?_
    intro a ha
    obtain ⟨jj, hjj, rfl⟩ := List.mem_map.1 ha
    rw [if_neg (by omega)]
  rw [h2, List.append_nil]

/-- The upload loop's spawn grid, flattened: operation `ti` of the run is
chunk `ti` clipped at the artifact end, or a no-op past the end. -/
theorem writeOps_eq (len csz jobs : Nat) (hc : 0 < csz) (hj : 0 < jobs)
    (hb : len + csz * jobs ≤ U32) :
    writeOps len csz jobs
      = (List.range (numBatches len csz jobs * jobs)).map
          (fun ti => if ti * csz < len then
              WOp.write (ti * csz) (min csz (len - ti * csz))
            else WOp.noop) := by
  rw [← range_mul_flatMap jobs _ (numBatches len csz jobs)]
  unfold writeOps
  rw [List.flatMap_def, List.flatMap_def]
  apply congrArg List.flatten
  apply List.map_congr_left
  intro i hi
  apply List.map_congr_left
  intro j hjm
  exact workerOp_eq len csz jobs i j hc hj hb (List.mem_range.1 hi)
    (List.mem_range.1 hjm)

/-- The write instructions built by the upload loop are exactly the
specification's chunk list. -/
theorem writes_eq_chunkSpec (len csz jobs : Nat) (hc : 0 < csz)
    (hj : 0 < jobs) (hb : len + csz * jobs ≤ U32) :
    (writeOps len csz jobs).filterMap WOp.toWrite = chunkSpec len csz := by
  rw [writeOps_eq len csz jobs hc hj hb, List.filterMap_map]
  have hfun : (WOp.toWrite ∘ fun ti =>
      if ti * csz < len then
        WOp.write (ti * csz) (min csz (len - ti * csz)) else WOp.noop)
      = fun ti => if ti < numChunks len csz then
          some (ti * csz, min csz (len - ti * csz)) else none := by
    funext ti
    by_cases h : ti * csz < len
    · rw [Function.comp_apply, if_pos h,
        if_pos ((lt_numChunks_iff len csz ti hc).2 h)]
      rfl
    · rw [Function.comp_apply, if_neg h,
        if_neg (fun hcon => h ((lt_numChunks_iff len csz ti hc).1 hcon))]
      rfl
  rw [hfun]
  exact filterMap_range_cutoff _ _ _ (numChunks_le_batches len csz jobs hc hj)

/-- The chunk list covers the artifact byte range exactly once, in order. -/
theorem chunkSpec_flatten (len csz : Nat) (hc : 0 < csz) :
    ((chunkSpec len csz).map (fun w => List.range' w.1 w.2)).flatten
      = List.range len := by
  have key : ∀ K : Nat,
      (((List.range K).map
            (fun k => (k * csz, min csz (len - k * csz)))).map
          (fun w => List.range' w.1 w.2)).flatten
        = List.range' 0 (min (K * csz) len) := by
    intro K
    induction K with
    | zero => simp
    | succ K ih =>
      rw [List.range_succ, List.map_append, List.map_append,
        List.flatten_append, ih]
      simp only [List.map_cons, List.map_nil, List.flatten_cons,
        List.flatten_nil, List.append_nil]
      have e : (K + 1) * csz = K * csz + csz := by ring
      by_cases h : K * csz < len
      · have hmin : min (K * csz) len = K * csz := by omega
        rw [hmin]
        have happ := List.range'_append_1 0 (K * csz)
          (min csz (len - K * csz))
        rw [Nat.zero_add] at happ
        rw [happ]
        congr 1
        omega
      · have hmin : min (K * csz) len = len := by omega
        have h0 : min csz (len - K * csz) = 0 := by omega
        have hmin2 : min ((K + 1) * csz) len = len := by omega
        rw [hmin, h0, hmin2]
        simp
  have hge : len ≤ numChunks len csz * csz := le_ceil_mul len csz hc
  have hmin : min (numChunks len csz * csz) len = len := by omega
  rw [chunkSpec, key (numChunks len csz), hmin, List.range_eq_range']

/-- C7 (amended, for artifacts whose offsets fit the source's `u32` cast:
positive chunk size and worker count with
`len + chunkSize × jobs ≤ 2^32`): the write operations built by the upload
loop are exactly the chunks at offset `index × chunkSize` with length
clipped at the artifact end (conjunct 1, which gives offset arithmetic and
pairwise disjointness), their byte ranges concatenated in order are
precisely `[0, len)` — each position covered exactly once (conjunct 2) —
and the 1000-byte/900-chunk/1-worker instance builds exactly the two
writes `(0, 900)` and `(900, 100)` (conjunct 3). -/
theorem chunk_coverage (len csz jobs : Nat) (hc : 0 < csz) (hj : 0 < jobs)
    (hb : len + csz * jobs ≤ U32) :
    (writeOps len csz jobs).filterMap WOp.toWrite = chunkSpec len csz ∧
    (((writeOps len csz jobs).filterMap WOp.toWrite).map
        (fun w => List.range' w.1 w.2)).flatten = List.range len ∧
    (writeOps 1000 900 1).filterMap WOp.toWrite = [(0, 900), (900, 100)] := by
  refine ⟨writes_eq_chunkSpec len csz jobs hc hj hb, ?_, by decide⟩
  rw [writes_eq_chunkSpec len csz jobs hc hj hb]
  exact chunkSpec_flatten len csz hc

/-- Witness for C7's theorem at the 1000-byte, 900-chunk, one-worker
instance. -/
theorem chunk_coverage_witness :
    (writeOps 1000 900 1).filterMap WOp.toWrite = chunkSpec 1000 900 ∧
    (((writeOps 1000 900 1).filterMap WOp.toWrite).map
        (fun w => List.range' w.1 w.2)).flatten = List.range 1000 ∧
    (writeOps 1000 900 1).filterMap WOp.toWrite = [(0, 900), (900, 100)] :=
  chunk_coverage 1000 900 1 (by decide) (by decide) (by norm_num [U32])

/-- C7 counterexample: for a 2^32-byte artifact with chunk size 2^31 and
one worker, the `as u32` cast makes `program_data.len() as u32` zero, the
out-of-range guard fires for every worker, no write operation at all is
built, and the claimed exact cover of `[0, len)` fails. -/
theorem chunk_coverage_fails_at_u32 :
    (((writeOps (2 ^ 32) (2 ^ 31) 1).filterMap WOp.toWrite).map
        (fun w => List.range' w.1 w.2)).flatten ≠ List.range (2 ^ 32) := by
  intro h
  have hl : (((writeOps (2 ^ 32) (2 ^ 31) 1).filterMap WOp.toWrite).map
      (fun w => List.range' w.1 w.2)).flatten = [] := by decide
  rw [hl] at h
  have := congrArg List.length h
  rw [List.length_range] at this
  simp at this

end SolanaDeployer
